import Mathlib

/-!
Verification of the FAST pinball platform communication core: the driver
command encoder (`mpf/platforms/fast/fast_driver.py`) and the serial
communicator (`mpf/platforms/fast/communicators/base.py`).

Python floats are embedded as exact rationals (`Rat`); the hex-string
rendering helpers (`Util.int_to_hex_string`, `Util.pwm8_to_hex_string`,
`Util.pwm32_to_hex_string`) live outside the embedded sources, so commands
are modelled as structured terms whose constructors mirror the command
format strings, carrying the numeric field values those helpers would
render.
-/

namespace Fast

/-- Truncation toward zero, the behaviour of Python `int()` on a number. -/
def intTrunc (q : Rat) : Int :=
  if 0 ≤ q then ⌊q⌋ else ⌈q⌉

/-- Result of `get_pwm_for_cmd`: which PWM encoder was chosen, and the integer
step count handed to the corresponding `Util.pwmN_to_hex_string` helper. -/
inductive PwmHex where
  | pwm8 (steps : Int)
  | pwm32 (steps : Int)
deriving DecidableEq, Repr

/-- `FASTDriver.get_pwm_for_cmd`: use PWM8 if sufficiently accurate
(`(power * 8) - int(power * 8) < 0.025`), else PWM32. -/
def get_pwm_for_cmd (power : Rat) : PwmHex :=
  if power * 8 - intTrunc (power * 8) < 1/40 then
    PwmHex.pwm8 (intTrunc (power * 8))
  else
    PwmHex.pwm32 (intTrunc (power * 32))

/-- Result of `get_hold_pwm_for_cmd`: either the configured
`hold_pwm_patter` override string, or a computed PWM encoding. -/
inductive HoldPwm where
  | patter (s : String)
  | pwm (p : PwmHex)
deriving DecidableEq, Repr

/-- Result of `get_recycle_ms_for_cmd`: the literal "00", the configured
`recycle_ms` override, the clamp value "FF", or twice the pulse duration. -/
inductive RecycleHex where
  | h00
  | ms (n : Int)
  | hFF
  | dbl (n : Nat)
deriving DecidableEq, Repr

/-- A board command, one constructor per format string in the source.
String-rendered numeric fields are kept as the numbers passed to the
(external) hex helpers. -/
inductive Cmd where
  /-- `'{trigger_cmd}:{number},{arg}'` with a literal argument byte. -/
  | trigger (number arg : String)
  /-- `'{driver_cmd}:{number},00,00,00'` (reset). -/
  | resetCmd (number : String)
  /-- `'{driver_cmd}:{number},89,00,10,{dur},{pwm},{hold_ms},{hold_pwm},00'`:
  configure-and-pulse-immediately. `none` hold fields are the literal `'00'`. -/
  | configFire (number : String) (durMs : Nat) (pwm : PwmHex)
      (holdMs : Option Nat) (holdPwm : Option HoldPwm)
  /-- `'{driver_cmd}:{number},C1,00,18,{dur},{pwm},{hold_pwm},{recycle}'`:
  sustained-enable configuration (logic triggered, drive now, latched). -/
  | configEnable (number : String) (durMs : Nat) (pwm : PwmHex)
      (holdPwm : HoldPwm) (recycle : RecycleHex)
  /-- A stored autofire rule command string, sent verbatim. -/
  | ruleCmd (raw : String)
  /-- `'{config_cmd}{number},81'` (clear hardware rule). -/
  | clearRule (configCmd number : String)
deriving DecidableEq, Repr

/-- How a command is handed to the connection. -/
inductive SendMode where
  | withConfirmation
  | andForget
deriving DecidableEq, Repr

/-- One emission to the connection: the send primitive used and the command. -/
abbrev Sent : Type := SendMode × Cmd

/-- `PulseSettings` from the driver platform interface. -/
structure PulseSettings where
  duration : Nat
  power : Rat
deriving DecidableEq, Repr

/-- `HoldSettings` from the driver platform interface. -/
structure HoldSettings where
  duration : Nat
  power : Rat
deriving DecidableEq, Repr

/-- The mutable state of one `FASTDriver` instance together with the
configuration it reads: `autofire` and its cached tuple, the
`_autofire_cleared` flag, the cached `config_state`, the output `number`,
`config.default_recycle`, and the `platform_settings` entries. -/
structure FASTDriver where
  number : String
  autofire : Option (String × (Rat × Rat × Rat))
  autofire_cleared : Bool
  config_state : Option (Rat × Rat × Rat)
  default_recycle : Bool
  hold_pwm_patter : Option String
  recycle_ms : Option Int
deriving DecidableEq, Repr

/-- `get_hold_pwm_for_cmd`: the `hold_pwm_patter` platform setting wins
(a configured setting is modelled as `some`), else `get_pwm_for_cmd`. -/
def get_hold_pwm_for_cmd (d : FASTDriver) (power : Rat) : HoldPwm :=
  match d.hold_pwm_patter with
  | some s => HoldPwm.patter s
  | none => HoldPwm.pwm (get_pwm_for_cmd power)

/-- `get_recycle_ms_for_cmd`: "00" when recycle is off, the `recycle_ms`
override when present, else twice the pulse duration clamped to "FF". -/
def get_recycle_ms_for_cmd (d : FASTDriver) (recycle : Bool) (pulse_ms : Nat) :
    RecycleHex :=
  if !recycle then RecycleHex.h00
  else
    match d.recycle_ms with
    | some n => RecycleHex.ms n
    | none =>
      if pulse_ms * 2 > 255 then RecycleHex.hFF
      else RecycleHex.dbl (pulse_ms * 2)

/-- `reset`: send `'{driver_cmd}:{number},00,00,00'` with confirmation. -/
def reset (d : FASTDriver) : FASTDriver × List Sent :=
  (d, [(SendMode.withConfirmation, Cmd.resetCmd d.number)])

/-- `_reenable_autofire_if_configured`: if an autofire rule exists and was
cleared, re-send it with confirmation, clear the flag, and restore
`config_state` to the autofire tuple. -/
def reenable_autofire_if_configured (d : FASTDriver) : FASTDriver × List Sent :=
  match d.autofire with
  | some af =>
    if d.autofire_cleared then
      ({ d with autofire_cleared := false, config_state := some af.2 },
       [(SendMode.withConfirmation, Cmd.ruleCmd af.1)])
    else (d, [])
  | none => (d, [])

/-- `disable`: send the `02` trigger fire-and-forget, run
`_reenable_autofire_if_configured`, then if an autofire rule exists send the
`00` re-enable trigger fire-and-forget. -/
def disable (d : FASTDriver) : FASTDriver × List Sent :=
  let out1 : Sent := (SendMode.andForget, Cmd.trigger d.number "02")
  let r := reenable_autofire_if_configured d
  match r.1.autofire with
  | some _ =>
    (r.1, out1 :: r.2 ++ [(SendMode.andForget, Cmd.trigger d.number "00")])
  | none => (r.1, out1 :: r.2)

/-- `set_autofire`: store the rule command and its tuple, mirror the tuple
into `config_state`, clear `_autofire_cleared`, and send the rule command
with confirmation. -/
def set_autofire (d : FASTDriver) (autofire_cmd : String)
    (pulse_duration pulse_power hold_power : Rat) : FASTDriver × List Sent :=
  ({ d with
      autofire := some (autofire_cmd, (pulse_duration, pulse_power, hold_power)),
      config_state := some (pulse_duration, pulse_power, hold_power),
      autofire_cleared := false },
   [(SendMode.withConfirmation, Cmd.ruleCmd autofire_cmd)])

/-- `clear_autofire`: send `'{config_cmd}{number},81'` with confirmation and
unset both `autofire` and `config_state`. -/
def clear_autofire (d : FASTDriver) (config_cmd number : String) :
    FASTDriver × List Sent :=
  ({ d with autofire := none, config_state := none },
   [(SendMode.withConfirmation, Cmd.clearRule config_cmd number)])

/-- `enable`: if an autofire rule is set and `config_state` equals the
requested `(duration, power, hold power)` tuple, manually trigger it with
`03`; otherwise send the full `C1,00,18` configuration, set
`_autofire_cleared`, and cache `(duration, duration, hold power)` (sic, as
written on line 151 of the source). -/
def enable (d : FASTDriver) (ps : PulseSettings) (hs : HoldSettings) :
    FASTDriver × List Sent :=
  let config_state : Rat × Rat × Rat := ((ps.duration : Rat), ps.power, hs.power)
  if d.autofire.isSome ∧ d.config_state = some config_state then
    (d, [(SendMode.andForget, Cmd.trigger d.number "03")])
  else
    ({ d with
        autofire_cleared := true,
        config_state := some ((ps.duration : Rat), (ps.duration : Rat), hs.power) },
     [(SendMode.andForget,
       Cmd.configEnable d.number ps.duration (get_pwm_for_cmd ps.power)
         (get_hold_pwm_for_cmd d hs.power)
         (get_recycle_ms_for_cmd d d.default_recycle ps.duration))])

/-- The reconfigure test of `_pulse`:
`not self.config_state or self.config_state[0] != config_state[0] or
self.config_state[1] != config_state[1]` (hold power, slot 2, is not
compared). -/
def needsReconfigure (old : Option (Rat × Rat × Rat)) (new : Rat × Rat × Rat) :
    Bool :=
  match old with
  | none => true
  | some c => if c.1 ≠ new.1 ∨ c.2.1 ≠ new.2.1 then true else false

/-- The body of `_pulse` before the autofire restore (lines 170-199): build
the requested tuple, and either write-and-fire with the `89` trigger
(updating `config_state` and setting `_autofire_cleared`) or re-trigger the
existing configuration with `01`. -/
def pulseCore (d : FASTDriver) (ps : PulseSettings) (hs : Option HoldSettings) :
    FASTDriver × Sent :=
  let hold_power : Option HoldPwm :=
    hs.map fun h => get_hold_pwm_for_cmd d h.power
  let hold_ms : Option Nat := hs.map fun h => h.duration
  let config_state : Rat × Rat × Rat :=
    match hs with
    | some h => ((ps.duration : Rat), ps.power, h.power)
    | none => ((ps.duration : Rat), ps.power, 0)
  if needsReconfigure d.config_state config_state then
    ({ d with config_state := some config_state, autofire_cleared := true },
     (SendMode.withConfirmation,
      Cmd.configFire d.number ps.duration (get_pwm_for_cmd ps.power)
        hold_ms hold_power))
  else
    (d, (SendMode.andForget, Cmd.trigger d.number "01"))

/-- `_pulse`: the core decision step followed by
`_reenable_autofire_if_configured`. -/
def pulseImpl (d : FASTDriver) (ps : PulseSettings) (hs : Option HoldSettings) :
    FASTDriver × List Sent :=
  let r1 := pulseCore d ps hs
  let r2 := reenable_autofire_if_configured r1.1
  (r2.1, r1.2 :: r2.2)

/-- `pulse`: `_pulse` without hold settings. -/
def pulse (d : FASTDriver) (ps : PulseSettings) : FASTDriver × List Sent :=
  pulseImpl d ps none

/-- `timed_enable`: `_pulse` with hold settings. -/
def timed_enable (d : FASTDriver) (ps : PulseSettings) (hs : HoldSettings) :
    FASTDriver × List Sent :=
  pulseImpl d ps (some hs)

/-! The serial communicator (`communicators/base.py`): flow-controlled
sending and the inbound frame splitter. -/

/-- The flow-control state of one `FastSerialCommunicator`:
`messages_in_flight`, `max_messages_in_flight` (0 means untracked), the
`send_ready` event (`true` = set = gate open) and the `dmd` binary-path
flag. -/
structure CommState where
  messages_in_flight : Nat
  max_messages_in_flight : Nat
  send_ready : Bool
  dmd : Bool
deriving DecidableEq, Repr

/-- One write to the transport: the DMD binary path prepends `b'BM:'`, the
normal path appends the `'\r'` terminator. -/
inductive WireWrite where
  | bm (msg : String)
  | line (msg : String)
deriving DecidableEq, Repr

/-- `_send`: the DMD path writes `BM:`-prefixed bytes untracked; a
connection with `max_messages_in_flight == 0` writes untracked; otherwise the
in-flight counter is incremented, the `send_ready` gate is cleared when the
counter exceeds the maximum, and the message is written regardless. -/
def sendImpl (s : CommState) (msg : String) : CommState × WireWrite :=
  if s.dmd then (s, WireWrite.bm msg)
  else if s.max_messages_in_flight = 0 then (s, WireWrite.line msg)
  else
    let mif := s.messages_in_flight + 1
    ({ s with
        messages_in_flight := mif,
        send_ready :=
          if mif > s.max_messages_in_flight then false else s.send_ready },
     WireWrite.line msg)

/-- One iteration of `_socket_writer` after a message was dequeued.
`timedOut` is true when the 1-second wait on `send_ready` raised
`asyncio.TimeoutError`: then the counter is reset to 0, the gate is set and
a warning is logged; in both cases `_send` runs on the message. The third
component records whether the warning was logged. -/
def socketWriterStep (s : CommState) (msg : String) (timedOut : Bool) :
    CommState × WireWrite × Bool :=
  let s1 :=
    if timedOut then { s with messages_in_flight := 0, send_ready := true }
    else s
  let r := sendImpl s1 msg
  (r.1, r.2, timedOut)

/-- `ignored_messages`: inbound frames consumed without being dispatched. -/
def ignored_messages : List String :=
  ["RX:P", "SN:P", "SL:P", "LX:P", "PX:P", "DN:P", "DL:P", "XX:F",
   "R1:F", "L1:P", "GI:P", "TL:P", "TN:P", "XO:P", "XX:U", "XX:N"]

/-- `received_msg.find(b'\r')` followed by the two slices: the frame before
the first carriage return and the remainder after it, or `none` when no
delimiter is present. -/
def findCR : List Char → Option (List Char × List Char)
  | [] => none
  | c :: cs =>
    if c = '\r' then some ([], cs)
    else
      match findCR cs with
      | none => none
      | some (m, r) => some (c :: m, r)

theorem findCR_decomp {buf m r : List Char} (h : findCR buf = some (m, r)) :
    buf = m ++ '\r' :: r ∧ '\r' ∉ m := by
  induction buf generalizing m r with
  | nil => simp [findCR] at h
  | cons c cs ih =>
    by_cases hc : c = '\r'
    · simp only [findCR, if_pos hc, Option.some.injEq, Prod.mk.injEq] at h
      obtain ⟨hm, hr⟩ := h
      subst hm hr
      simp [hc]
    · simp only [findCR, if_neg hc] at h
      cases hfind : findCR cs with
      | none => rw [hfind] at h; simp at h
      | some p =>
        obtain ⟨m', r'⟩ := p
        rw [hfind] at h
        simp only [Option.some.injEq, Prod.mk.injEq] at h
        obtain ⟨hm, hr⟩ := h
        subst hm hr
        obtain ⟨he, hn⟩ := ih hfind
        constructor
        · rw [he]; rfl
        · simp [hn, Ne.symm hc]

theorem findCR_none {buf : List Char} (h : findCR buf = none) : '\r' ∉ buf := by
  induction buf with
  | nil => simp
  | cons c cs ih =>
    by_cases hc : c = '\r'
    · simp [findCR, hc] at h
    · simp only [findCR, if_neg hc] at h
      cases hfind : findCR cs with
      | none => simp [Ne.symm hc, ih hfind]
      | some p => rw [hfind] at h; simp at h

theorem findCR_length {buf m r : List Char} (h : findCR buf = some (m, r)) :
    r.length < buf.length := by
  have := (findCR_decomp h).1
  subst this
  simp
  omega

/-- The `while` loop of `_parse_msg` on a buffer: split off frames at each
carriage return, drop empty frames, drop frames whose text is in
`ignored_messages`, and hand every other frame text to
`process_received_message` together with the processor identity. Returns the
final `received_msg` remainder and the dispatched list in order. -/
def parseLoop (processor : String) (buf : List Char) :
    List Char × List (String × String) :=
  match h : findCR buf with
  | none => (buf, [])
  | some (m, r) =>
    let rest := parseLoop processor r
    if m = [] then rest
    else if m.asString ∈ ignored_messages then rest
    else (rest.1, (m.asString, processor) :: rest.2)
termination_by buf.length
decreasing_by exact findCR_length h

/-- `_parse_msg`: append the chunk to the retained buffer and run the loop. -/
def parse_msg (received : List Char) (chunk : List Char) (processor : String) :
    List Char × List (String × String) :=
  parseLoop processor (received ++ chunk)

/-- The declarative frame splitter: the list of delimiter-terminated frames
and the trailing remainder. -/
def splitFrames (buf : List Char) : List (List Char) × List Char :=
  match h : findCR buf with
  | none => ([], buf)
  | some (m, r) =>
    let rest := splitFrames r
    (m :: rest.1, rest.2)
termination_by buf.length
decreasing_by exact findCR_length h

theorem splitFrames_of_findCR_none {buf : List Char} (h : findCR buf = none) :
    splitFrames buf = ([], buf) := by
  rw [splitFrames]
  split
  · rfl
  · rename_i m r heq
    rw [h] at heq
    exact absurd heq (by simp)

theorem splitFrames_of_findCR_some {buf m r : List Char}
    (h : findCR buf = some (m, r)) :
    splitFrames buf = (m :: (splitFrames r).1, (splitFrames r).2) := by
  rw [splitFrames]
  split
  · rename_i heq
    rw [h] at heq
    exact absurd heq (by simp)
  · rename_i m' r' heq
    rw [h] at heq
    simp only [Option.some.injEq, Prod.mk.injEq] at heq
    obtain ⟨hm, hr⟩ := heq
    subst hm hr
    rfl

theorem parseLoop_of_findCR_none {proc : String} {buf : List Char}
    (h : findCR buf = none) : parseLoop proc buf = (buf, []) := by
  rw [parseLoop]
  split
  · rfl
  · rename_i m r heq
    rw [h] at heq
    exact absurd heq (by simp)

theorem parseLoop_of_findCR_some {proc : String} {buf m r : List Char}
    (h : findCR buf = some (m, r)) :
    parseLoop proc buf =
      (if m = [] then parseLoop proc r
       else if m.asString ∈ ignored_messages then parseLoop proc r
       else ((parseLoop proc r).1, (m.asString, proc) :: (parseLoop proc r).2)) := by
  rw [parseLoop]
  split
  · rename_i heq
    rw [h] at heq
    exact absurd heq (by simp)
  · rename_i m' r' heq
    rw [h] at heq
    simp only [Option.some.injEq, Prod.mk.injEq] at heq
    obtain ⟨hm, hr⟩ := heq
    subst hm hr
    rfl

/-- Frames kept by the dispatcher: non-empty and not in the ignored list. -/
def dispatched (m : List Char) : Bool :=
  decide (m ≠ [] ∧ m.asString ∉ ignored_messages)

theorem parseLoop_eq_splitFrames (proc : String) (buf : List Char) :
    parseLoop proc buf =
      ((splitFrames buf).2,
       ((splitFrames buf).1.filter dispatched).map fun m => (m.asString, proc)) := by
  induction buf using splitFrames.induct with
  | case1 buf h =>
    rw [parseLoop_of_findCR_none h, splitFrames_of_findCR_none h]
    rfl
  | case2 buf m r h ih =>
    rw [parseLoop_of_findCR_some h, splitFrames_of_findCR_some h]
    by_cases hm : m = []
    · simp [hm, ih, dispatched]
    · by_cases hi : m.asString ∈ ignored_messages
      · simp [hm, hi, ih, dispatched]
      · simp [hm, hi, ih, dispatched]

theorem splitFrames_length_eq_count (buf : List Char) :
    (splitFrames buf).1.length = buf.count '\r' := by
  induction buf using splitFrames.induct with
  | case1 buf h =>
    rw [splitFrames_of_findCR_none h]
    exact (List.count_eq_zero.mpr (findCR_none h)).symm
  | case2 buf m r h ih =>
    rw [splitFrames_of_findCR_some h]
    obtain ⟨hd, hn⟩ := findCR_decomp h
    subst hd
    simp only [List.length_cons, List.count_append, List.count_cons, ih]
    rw [List.count_eq_zero.mpr hn]
    simp

theorem splitFrames_remainder_noCR (buf : List Char) :
    '\r' ∉ (splitFrames buf).2 := by
  induction buf using splitFrames.induct with
  | case1 buf h =>
    rw [splitFrames_of_findCR_none h]
    exact findCR_none h
  | case2 buf m r h ih =>
    rw [splitFrames_of_findCR_some h]
    exact ih

theorem splitFrames_flatten (buf : List Char) :
    buf = ((splitFrames buf).1.map fun m => m ++ ['\r']).flatten ++
      (splitFrames buf).2 := by
  induction buf using splitFrames.induct with
  | case1 buf h =>
    rw [splitFrames_of_findCR_none h]
    simp
  | case2 buf m r h ih =>
    rw [splitFrames_of_findCR_some h]
    obtain ⟨hd, _⟩ := findCR_decomp h
    subst hd
    simp only [List.map_cons, List.flatten_cons, List.append_assoc,
      List.cons_append, List.nil_append]
    rw [← ih]

/-! Helper characterizations of the driver encoder. -/

/-- The requested `config_state` tuple `_pulse` builds from its arguments:
`(duration, pulse power, hold power)`, hold power 0 without hold settings. -/
def requestedTuple (ps : PulseSettings) (hs : Option HoldSettings) :
    Rat × Rat × Rat :=
  match hs with
  | some h => ((ps.duration : Rat), ps.power, h.power)
  | none => ((ps.duration : Rat), ps.power, 0)

/-- The cached Driver Command State is set and agrees with the request on the
two compared slots: pulse duration and pulse power (hold power excluded). -/
def cacheHit (d : FASTDriver) (ps : PulseSettings) : Prop :=
  ∃ c, d.config_state = some c ∧ c.1 = (ps.duration : Rat) ∧ c.2.1 = ps.power

theorem pulseCore_eq (d : FASTDriver) (ps : PulseSettings)
    (hs : Option HoldSettings) :
    pulseCore d ps hs =
      if needsReconfigure d.config_state (requestedTuple ps hs) then
        ({ d with config_state := some (requestedTuple ps hs),
                  autofire_cleared := true },
         (SendMode.withConfirmation,
          Cmd.configFire d.number ps.duration (get_pwm_for_cmd ps.power)
            (hs.map fun h => h.duration)
            (hs.map fun h => get_hold_pwm_for_cmd d h.power)))
      else (d, (SendMode.andForget, Cmd.trigger d.number "01")) := rfl

theorem requestedTuple_fst (ps : PulseSettings) (hs : Option HoldSettings) :
    (requestedTuple ps hs).1 = (ps.duration : Rat) := by
  cases hs <;> rfl

theorem requestedTuple_snd (ps : PulseSettings) (hs : Option HoldSettings) :
    (requestedTuple ps hs).2.1 = ps.power := by
  cases hs <;> rfl

theorem needsReconfigure_eq_false_iff (d : FASTDriver) (ps : PulseSettings)
    (hs : Option HoldSettings) :
    needsReconfigure d.config_state (requestedTuple ps hs) = false ↔
      cacheHit d ps := by
  cases hcs : d.config_state with
  | none => simp [needsReconfigure, cacheHit, hcs]
  | some c =>
    simp only [needsReconfigure, cacheHit, hcs, Option.some.injEq,
      requestedTuple_fst, requestedTuple_snd]
    constructor
    · intro h
      by_cases h1 : c.1 = (ps.duration : Rat)
      · by_cases h2 : c.2.1 = ps.power
        · exact ⟨c, rfl, h1, h2⟩
        · simp [h1, h2] at h
      · simp [h1] at h
    · rintro ⟨c', hc', h1, h2⟩
      subst hc'
      simp [h1, h2]

/-- Claim C1: a pulse or timed-enable re-triggers with the short `01` trigger
command exactly when the cached Driver Command State is set and equals the
request on (pulse duration, pulse power) — hold power excluded; otherwise it
sends the full `89` configure-and-fire command carrying duration, pulse
power, hold duration and hold power, and updates the cache to the requested
(duration, pulse power, hold power) tuple. Stated of `pulseCore`, the
decision-and-fire step of `_pulse`; the subsequent autofire-restore step of
`_pulse` is claim C8. -/
theorem pulse_retrigger_iff_cached_config (d : FASTDriver) (ps : PulseSettings)
    (hs : Option HoldSettings) :
    (cacheHit d ps →
      pulseCore d ps hs = (d, (SendMode.andForget, Cmd.trigger d.number "01"))) ∧
    (¬ cacheHit d ps →
      pulseCore d ps hs =
        ({ d with config_state := some (requestedTuple ps hs),
                  autofire_cleared := true },
         (SendMode.withConfirmation,
          Cmd.configFire d.number ps.duration (get_pwm_for_cmd ps.power)
            (hs.map fun h => h.duration)
            (hs.map fun h => get_hold_pwm_for_cmd d h.power)))) := by
  constructor
  · intro hhit
    have hb : needsReconfigure d.config_state (requestedTuple ps hs) = false :=
      (needsReconfigure_eq_false_iff d ps hs).mpr hhit
    rw [pulseCore_eq, if_neg (by simp [hb])]
  · intro hmiss
    have hb : needsReconfigure d.config_state (requestedTuple ps hs) = true := by
      cases hb : needsReconfigure d.config_state (requestedTuple ps hs) with
      | false =>
        exact absurd ((needsReconfigure_eq_false_iff d ps hs).mp hb) hmiss
      | true => rfl
    rw [pulseCore_eq, if_pos hb]

/-- Witness for C1: a second pulse with the cached (duration, power) emits the
short `01` re-trigger; a pulse on an unset cache emits the full `89`
configure-and-fire and caches the requested tuple. -/
theorem pulse_retrigger_iff_cached_config_witness :
    pulseCore ⟨"05", none, false, some (10, 1/2, 0), false, none, none⟩
        ⟨10, 1/2⟩ none =
      (⟨"05", none, false, some (10, 1/2, 0), false, none, none⟩,
       (SendMode.andForget, Cmd.trigger "05" "01")) ∧
    pulseCore ⟨"05", none, false, none, false, none, none⟩ ⟨10, 1/2⟩ none =
      (⟨"05", none, true, some (requestedTuple ⟨10, 1/2⟩ none), false, none, none⟩,
       (SendMode.withConfirmation,
        Cmd.configFire "05" 10 (get_pwm_for_cmd (1/2)) none none)) := by
  constructor
  · exact (pulse_retrigger_iff_cached_config _ _ _).1
      ⟨(10, 1/2, 0), rfl, by norm_num, rfl⟩
  · exact (pulse_retrigger_iff_cached_config _ _ _).2
      (by rintro ⟨c, hc, -, -⟩; exact Option.noConfusion hc)

/-- Claim C3: the code stores `(duration, duration, hold power)` on the
full-configuration path of `enable` — the pulse duration lands in the
pulse-power slot. Evaluated at pulse (10 ms, power 1/2), hold power 1/4: the
cache becomes `(10, 10, 1/4)`, not the `(10, 1/2, 1/4)` the claim states. -/
theorem enable_full_path_miscaches_duration_as_power :
    ((enable ⟨"05", none, false, none, false, none, none⟩
        ⟨10, 1/2⟩ ⟨0, 1/4⟩).1.config_state = some (10, 10, 1/4)) ∧
    some ((10 : Rat), 10, 1/4) ≠ some ((10 : Rat), 1/2, 1/4) := by
  constructor
  · norm_num [enable]
  · norm_num

/-- Claim C7: immediately after `set_autofire`, `disable` emits exactly the
immediate-disable trigger `02` followed by the re-enable-autofire trigger
`00` (both fire-and-forget). -/
theorem disable_after_set_autofire_emits_two_triggers (d : FASTDriver)
    (cmd : String) (pd pp hp : Rat) :
    (disable (set_autofire d cmd pd pp hp).1).2 =
      [(SendMode.andForget, Cmd.trigger d.number "02"),
       (SendMode.andForget, Cmd.trigger d.number "00")] := by
  simp [disable, set_autofire, reenable_autofire_if_configured]

/-- Claim C8: a pulse or timed-enable on an output whose autofire binding
exists and is suspended — either before the call or by this call's
reconfiguration — ends by re-sending the stored autofire rule command,
clears the suspended flag, and restores the cached Driver Command State to
the autofire binding's tuple. -/
theorem pulse_rearms_suspended_autofire (d : FASTDriver) (ps : PulseSettings)
    (hs : Option HoldSettings) (af : String × (Rat × Rat × Rat))
    (haf : d.autofire = some af)
    (hsusp : d.autofire_cleared = true ∨ ¬ cacheHit d ps) :
    (pulseImpl d ps hs).1.autofire_cleared = false ∧
    (pulseImpl d ps hs).1.config_state = some af.2 ∧
    (pulseImpl d ps hs).2.getLast? =
      some (SendMode.withConfirmation, Cmd.ruleCmd af.1) := by
  unfold pulseImpl
  rw [pulseCore_eq]
  cases hb : needsReconfigure d.config_state (requestedTuple ps hs) with
  | true =>
    simp [hb, reenable_autofire_if_configured, haf]
  | false =>
    have hhit : cacheHit d ps := (needsReconfigure_eq_false_iff d ps hs).mp hb
    rcases hsusp with hcl | hmiss
    · simp [hb, reenable_autofire_if_configured, haf, hcl]
    · exact absurd hhit hmiss

/-- Witness for C8: with a cleared autofire binding and a matching cache, a
pulse re-arms the rule, clears the flag, and restores the cache. -/
theorem pulse_rearms_suspended_autofire_witness :
    (pulseImpl ⟨"05", some ("AF", (10, 1, 1/2)), true, some (10, 1, 1/2),
        false, none, none⟩ ⟨10, 1⟩ none).1.autofire_cleared = false ∧
    (pulseImpl ⟨"05", some ("AF", (10, 1, 1/2)), true, some (10, 1, 1/2),
        false, none, none⟩ ⟨10, 1⟩ none).1.config_state = some (10, 1, 1/2) ∧
    (pulseImpl ⟨"05", some ("AF", (10, 1, 1/2)), true, some (10, 1, 1/2),
        false, none, none⟩ ⟨10, 1⟩ none).2.getLast? =
      some (SendMode.withConfirmation, Cmd.ruleCmd "AF") :=
  pulse_rearms_suspended_autofire _ _ _ ("AF", (10, 1, 1/2)) rfl (Or.inl rfl)

/-- Claim C10: `clear_autofire` unsets both the autofire binding and the
cached Driver Command State, so the next pulse or timed-enable necessarily
takes the full `89` reconfiguration path (and, the binding being gone, emits
nothing else). -/
theorem clear_autofire_unsets_and_forces_reconfigure (d : FASTDriver)
    (cc n : String) (ps : PulseSettings) (hs : Option HoldSettings) :
    ((clear_autofire d cc n).1.autofire = none) ∧
    ((clear_autofire d cc n).1.config_state = none) ∧
    pulseImpl (clear_autofire d cc n).1 ps hs =
      ({ (clear_autofire d cc n).1 with
          config_state := some (requestedTuple ps hs),
          autofire_cleared := true },
       [(SendMode.withConfirmation,
         Cmd.configFire d.number ps.duration (get_pwm_for_cmd ps.power)
           (hs.map fun h => h.duration)
           (hs.map fun h => get_hold_pwm_for_cmd (clear_autofire d cc n).1 h.power))]) := by
  refine ⟨rfl, rfl, ?_⟩
  unfold pulseImpl
  rw [pulseCore_eq]
  simp [clear_autofire, needsReconfigure, reenable_autofire_if_configured]

/-- Claim C2 counterexample: the code compares the requested tuple against
`config_state`, not against the autofire binding's cached tuple. Starting
from a fresh driver, `set_autofire` with tuple (10, 1, 1/2) followed by
`enable` (1 ms, power 1, hold 1/2) leaves the binding's tuple at (10, 1, 1/2)
while `config_state` is (1, 1, 1/2); a second identical `enable` then emits
the `03` manual trigger although the binding's tuple differs from the
request, refuting the claimed iff. -/
theorem enable_autofire_tuple_comparison_counterexample :
    ¬ (∀ (d : FASTDriver) (ps : PulseSettings) (hs : HoldSettings),
        (enable d ps hs).2 = [(SendMode.andForget, Cmd.trigger d.number "03")] ↔
          ∃ af, d.autofire = some af ∧
            af.2 = ((ps.duration : Rat), ps.power, hs.power)) := by
  intro hclaim
  have hd2eval :
      (enable (set_autofire ⟨"05", none, false, none, false, none, none⟩
          "AF" 10 1 (1/2)).1 ⟨1, 1⟩ ⟨0, 1/2⟩).1 =
        ⟨"05", some ("AF", (10, 1, 1/2)), true, some (1, 1, 1/2), false,
         none, none⟩ := by
    norm_num [enable, set_autofire]
  have hmp := (hclaim
      (enable (set_autofire ⟨"05", none, false, none, false, none, none⟩
          "AF" 10 1 (1/2)).1 ⟨1, 1⟩ ⟨0, 1/2⟩).1 ⟨1, 1⟩ ⟨0, 1/2⟩).mp
    (by rw [hd2eval]; norm_num [enable])
  obtain ⟨af, haf, htup⟩ := hmp
  rw [hd2eval] at haf
  simp only [Option.some.injEq] at haf
  rw [← haf] at htup
  simp only [Prod.mk.injEq] at htup
  have : (10 : Rat) = 1 := by
    have h1 := htup.1
    norm_num at h1
  norm_num at this

/-- Claim C2 (amended): `enable` sends the lightweight `03` manual trigger iff
an autofire binding exists and the output's cached Driver Command State —
not the autofire binding's tuple — equals the requested
(duration, pulse power, hold power) tuple; in every other case it sends the
full `C1,00,18` sustained-enable configuration and marks the binding
suspended. -/
theorem enable_manual_trigger_iff_config_state (d : FASTDriver)
    (ps : PulseSettings) (hs : HoldSettings) :
    (d.autofire.isSome = true ∧
        d.config_state = some ((ps.duration : Rat), ps.power, hs.power) →
      enable d ps hs = (d, [(SendMode.andForget, Cmd.trigger d.number "03")])) ∧
    (¬ (d.autofire.isSome = true ∧
        d.config_state = some ((ps.duration : Rat), ps.power, hs.power)) →
      enable d ps hs =
        ({ d with autofire_cleared := true,
                  config_state :=
                    some ((ps.duration : Rat), (ps.duration : Rat), hs.power) },
         [(SendMode.andForget,
           Cmd.configEnable d.number ps.duration (get_pwm_for_cmd ps.power)
             (get_hold_pwm_for_cmd d hs.power)
             (get_recycle_ms_for_cmd d d.default_recycle ps.duration))])) := by
  constructor
  · intro h
    unfold enable
    dsimp only
    rw [if_pos h]
  · intro h
    unfold enable
    dsimp only
    rw [if_neg h]

/-- Witness for the amended C2: a matching cache with a binding takes the
`03` trigger path; a fresh driver takes the full-configuration path. -/
theorem enable_manual_trigger_iff_config_state_witness :
    enable ⟨"05", some ("AF", (10, 1, 1/2)), false,
        some ((((10 : Nat)) : Rat), 1, 1/2), false, none, none⟩ ⟨10, 1⟩ ⟨0, 1/2⟩ =
      (⟨"05", some ("AF", (10, 1, 1/2)), false,
        some ((((10 : Nat)) : Rat), 1, 1/2), false, none, none⟩,
       [(SendMode.andForget, Cmd.trigger "05" "03")]) ∧
    enable ⟨"05", none, false, none, false, none, none⟩ ⟨10, 1/2⟩ ⟨0, 1/4⟩ =
      (⟨"05", none, true,
        some ((((10 : Nat)) : Rat), (((10 : Nat)) : Rat), 1/4), false, none, none⟩,
       [(SendMode.andForget,
         Cmd.configEnable "05" 10 (get_pwm_for_cmd (1/2))
           (HoldPwm.pwm (get_pwm_for_cmd (1/4))) RecycleHex.h00)]) := by
  constructor
  · exact (enable_manual_trigger_iff_config_state _ _ _).1 ⟨rfl, rfl⟩
  · exact (enable_manual_trigger_iff_config_state _ _ _).2
      (by rintro ⟨hsome, -⟩; exact Bool.noConfusion hsome)

/-- Claim C4: when the writer task's 1-second wait on the send-permitted gate
times out, the in-flight counter is reset to zero, the gate is force-opened,
a warning is logged, and the dequeued command is still written to the
transport. -/
theorem socket_writer_timeout_recovery (s : CommState) (msg : String) :
    (socketWriterStep s msg true).2.2 = true ∧
    ((socketWriterStep s msg true).2.1 = WireWrite.bm msg ∨
      (socketWriterStep s msg true).2.1 = WireWrite.line msg) ∧
    socketWriterStep s msg true =
      ((sendImpl { s with messages_in_flight := 0, send_ready := true } msg).1,
       (sendImpl { s with messages_in_flight := 0, send_ready := true } msg).2,
       true) ∧
    (s.dmd = false → 0 < s.max_messages_in_flight →
      (socketWriterStep s msg true).1.messages_in_flight = 1 ∧
      (socketWriterStep s msg true).1.send_ready = true ∧
      (socketWriterStep s msg true).2.1 = WireWrite.line msg) := by
  refine ⟨rfl, ?_, rfl, ?_⟩
  · unfold socketWriterStep sendImpl
    by_cases hd : s.dmd
    · simp [hd]
    · by_cases hm : s.max_messages_in_flight = 0 <;> simp [hd, hm]
  · intro hd hm
    have hne : s.max_messages_in_flight ≠ 0 := by omega
    have hgt : ¬ (0 + 1 > s.max_messages_in_flight) := by omega
    unfold socketWriterStep sendImpl
    simp [hd, hne, hgt]

/-- Witness for C4: a stalled tracked connection (counter 7 over maximum 4,
gate closed) recovers on timeout: the command goes out, the counter restarts
at 1, the gate is open, the warning is logged. -/
theorem socket_writer_timeout_recovery_witness :
    (socketWriterStep ⟨7, 4, false, false⟩ "DL:05" true).1.messages_in_flight = 1 ∧
    (socketWriterStep ⟨7, 4, false, false⟩ "DL:05" true).1.send_ready = true ∧
    (socketWriterStep ⟨7, 4, false, false⟩ "DL:05" true).2.1 =
      WireWrite.line "DL:05" ∧
    (socketWriterStep ⟨7, 4, false, false⟩ "DL:05" true).2.2 = true := by
  have h := socket_writer_timeout_recovery ⟨7, 4, false, false⟩ "DL:05"
  have h4 := h.2.2.2 rfl (by norm_num)
  exact ⟨h4.1, h4.2.1, h4.2.2, h.1⟩

/-- The state after a sequence of `_send` calls. -/
def sendSeq (s : CommState) (msgs : List String) : CommState :=
  msgs.foldl (fun t m => (sendImpl t m).1) s

theorem sendImpl_preserves_gate_inv (s : CommState) (msg : String)
    (h : s.send_ready = true →
      s.messages_in_flight ≤ s.max_messages_in_flight) :
    (sendImpl s msg).1.send_ready = true →
      (sendImpl s msg).1.messages_in_flight ≤
        (sendImpl s msg).1.max_messages_in_flight := by
  unfold sendImpl
  by_cases hd : s.dmd
  · simp [hd]
    intro hr
    have := h hr
    omega
  · by_cases hm : s.max_messages_in_flight = 0
    · simp [hd, hm]
      intro hr
      have := h hr
      omega
    · simp only [hd, hm, Bool.false_eq_true, if_false, if_neg hm]
      by_cases hgt : s.messages_in_flight + 1 > s.max_messages_in_flight
      · simp [hgt]
      · simp [hgt]
        omega

theorem sendImpl_gate_stays_closed (s : CommState) (msg : String)
    (h : s.send_ready = false) : (sendImpl s msg).1.send_ready = false := by
  unfold sendImpl
  by_cases hd : s.dmd
  · simpa [hd]
  · by_cases hm : s.max_messages_in_flight = 0
    · simpa [hd, hm]
    · simp only [hd, hm, Bool.false_eq_true, if_false, if_neg hm]
      by_cases hgt : s.messages_in_flight + 1 > s.max_messages_in_flight <;>
        simp [hgt, h]

/-- Claim C5: along any sequence of `_send` calls, an open gate implies the
in-flight counter is at most the configured maximum; a `_send` whose
increment pushes the counter above the maximum still writes the command but
closes the gate; and once closed, the gate stays closed under further
`_send` calls (only the out-of-band acknowledgement path can reopen it). -/
theorem send_flow_control_invariant :
    (∀ (s : CommState) (msgs : List String),
      (s.send_ready = true →
        s.messages_in_flight ≤ s.max_messages_in_flight) →
      ((sendSeq s msgs).send_ready = true →
        (sendSeq s msgs).messages_in_flight ≤
          (sendSeq s msgs).max_messages_in_flight)) ∧
    (∀ (s : CommState) (msg : String),
      s.dmd = false → 0 < s.max_messages_in_flight →
      s.max_messages_in_flight < s.messages_in_flight + 1 →
      (sendImpl s msg).1.send_ready = false ∧
      (sendImpl s msg).2 = WireWrite.line msg ∧
      (sendImpl s msg).1.messages_in_flight = s.messages_in_flight + 1) ∧
    (∀ (s : CommState) (msgs : List String),
      s.send_ready = false → (sendSeq s msgs).send_ready = false) := by
  refine ⟨?_, ?_, ?_⟩
  · intro s msgs
    induction msgs generalizing s with
    | nil => exact fun h => h
    | cons m ms ih =>
      intro h
      exact ih _ (sendImpl_preserves_gate_inv s m h)
  · intro s msg hd hm hgt
    have hne : s.max_messages_in_flight ≠ 0 := by omega
    unfold sendImpl
    simp [hd, hne, hgt]
  · intro s msgs
    induction msgs generalizing s with
    | nil => exact fun h => h
    | cons m ms ih =>
      intro h
      exact ih _ (sendImpl_gate_stays_closed s m h)

/-- Witness for C5: sending with the counter already at the maximum (2 of 2,
gate open) pushes to 3, closes the gate, and still writes the line; a closed
gate stays closed across further sends. -/
theorem send_flow_control_invariant_witness :
    ((sendSeq ⟨2, 2, true, false⟩ ["SA:"]).send_ready = true →
      (sendSeq ⟨2, 2, true, false⟩ ["SA:"]).messages_in_flight ≤
        (sendSeq ⟨2, 2, true, false⟩ ["SA:"]).max_messages_in_flight) ∧
    ((sendImpl ⟨2, 2, true, false⟩ "SA:").1.send_ready = false ∧
      (sendImpl ⟨2, 2, true, false⟩ "SA:").2 = WireWrite.line "SA:" ∧
      (sendImpl ⟨2, 2, true, false⟩ "SA:").1.messages_in_flight = 3) ∧
    (sendSeq ⟨5, 2, false, false⟩ ["WD:1", "WD:2"]).send_ready = false := by
  have h := send_flow_control_invariant
  exact ⟨h.1 ⟨2, 2, true, false⟩ ["SA:"] (fun _ => by norm_num),
         h.2.1 ⟨2, 2, true, false⟩ "SA:" rfl (by norm_num) (by norm_num),
         h.2.2 ⟨5, 2, false, false⟩ ["WD:1", "WD:2"] rfl⟩

/-- Claim C6: `_parse_msg` on the retained buffer plus a new chunk produces
one frame per carriage-return delimiter, keeps the bytes after the last
delimiter as the new retained buffer (which holds no delimiter), discards
empty frames, discards a non-empty frame exactly when its full text is in
`ignored_messages`, and forwards every other frame, in arrival order, paired
with the owning processor identity. -/
theorem parse_msg_framing_and_dispatch (received chunk : List Char)
    (processor : String) :
    parse_msg received chunk processor =
      ((splitFrames (received ++ chunk)).2,
       ((splitFrames (received ++ chunk)).1.filter dispatched).map
         fun m => (m.asString, processor)) ∧
    (splitFrames (received ++ chunk)).1.length =
      (received ++ chunk).count '\r' ∧
    '\r' ∉ (splitFrames (received ++ chunk)).2 ∧
    received ++ chunk =
      ((splitFrames (received ++ chunk)).1.map fun m => m ++ ['\r']).flatten ++
        (splitFrames (received ++ chunk)).2 :=
  ⟨parseLoop_eq_splitFrames processor (received ++ chunk),
   splitFrames_length_eq_count _, splitFrames_remainder_noCR _,
   splitFrames_flatten _⟩

/-- Claim C9: for a power fraction in [0, 1], `get_pwm_for_cmd` chooses the
8-step encoder exactly when the fraction lies within the 8-step rounding
tolerance (at most 1/40 of a step above an eighth-step multiple); every
exact multiple of 1/8 chooses the 8-step encoder, and 0.3333 chooses the
32-step encoder. -/
theorem get_pwm_for_cmd_tolerance_selection :
    (∀ p : Rat, 0 ≤ p → p ≤ 1 →
      ((∃ n : Int, 0 ≤ p * 8 - n ∧ p * 8 - n < 1/40) ↔
        ∃ m, get_pwm_for_cmd p = PwmHex.pwm8 m)) ∧
    (∀ k : Nat, get_pwm_for_cmd ((k : Rat) / 8) = PwmHex.pwm8 (k : Int)) ∧
    get_pwm_for_cmd 0 = PwmHex.pwm8 0 ∧
    get_pwm_for_cmd (1/8) = PwmHex.pwm8 1 ∧
    get_pwm_for_cmd (1/2) = PwmHex.pwm8 4 ∧
    get_pwm_for_cmd 1 = PwmHex.pwm8 8 ∧
    get_pwm_for_cmd (3333/10000) = PwmHex.pwm32 10 := by
  refine ⟨?_, ?_, ?_, ?_, ?_, ?_, ?_⟩
  · intro p hp0 _hp1
    have htr : intTrunc (p * 8) = ⌊p * 8⌋ := by
      unfold intTrunc
      rw [if_pos (by positivity)]
    constructor
    · rintro ⟨n, h0, h1⟩
      have hn : ⌊p * 8⌋ = n := by
        rw [Int.floor_eq_iff]
        constructor
        · linarith
        · have h40 : (1 : Rat)/40 < 1 := by norm_num
          linarith
      have hcond : p * 8 - (⌊p * 8⌋ : Rat) < 1/40 := by
        rw [hn]
        linarith
      refine ⟨⌊p * 8⌋, ?_⟩
      unfold get_pwm_for_cmd
      rw [htr, if_pos hcond]
    · rintro ⟨m, hm⟩
      unfold get_pwm_for_cmd at hm
      rw [htr] at hm
      by_cases hc : p * 8 - (⌊p * 8⌋ : Rat) < 1/40
      · refine ⟨⌊p * 8⌋, ?_, hc⟩
        have := Int.floor_le (p * 8)
        linarith
      · rw [if_neg hc] at hm
        exact absurd hm (by simp)
  · intro k
    have h8 : ((k : Rat) / 8) * 8 = (k : Rat) := by
      field_simp
    unfold get_pwm_for_cmd intTrunc
    rw [h8]
    norm_num
  · norm_num [get_pwm_for_cmd, intTrunc]
  · norm_num [get_pwm_for_cmd, intTrunc]
  · norm_num [get_pwm_for_cmd, intTrunc]
  · norm_num [get_pwm_for_cmd, intTrunc]
  · norm_num [get_pwm_for_cmd, intTrunc]

/-- Witness for C9: power 1/2 is within tolerance of step 4 and selects the
8-step encoder; 3/8 is an exact eighth-step multiple and selects step 3. -/
theorem get_pwm_for_cmd_tolerance_selection_witness :
    (∃ m, get_pwm_for_cmd (1/2) = PwmHex.pwm8 m) ∧
    get_pwm_for_cmd (((3 : Nat) : Rat) / 8) = PwmHex.pwm8 ((3 : Nat) : Int) := by
  have h := get_pwm_for_cmd_tolerance_selection
  exact ⟨(h.1 (1/2) (by norm_num) (by norm_num)).mp
           ⟨4, by norm_num, by norm_num⟩,
         h.2.1 3⟩

end Fast
